import Mathlib

/-!
Verification of `bfm.py` (Build and Flash Manager).

Strings from the Python source are modelled as `List Char` (`Str`); each
Python function that the claims touch is translated into a Lean definition
bearing the same name.  Filesystem and process effects are made explicit:
file contents are passed in and returned, directory scans are a list of
entries, and the orchestration pipeline returns the list of external
actions it performed together with the error (if any) that aborted it.
-/

abbrev Str := List Char

/-- Characters stripped by Python `str.strip()` (the ASCII whitespace set;
the version strings handled by the program are ASCII). -/
def isSpaceChar (c : Char) : Bool :=
  c = ' ' ∨ c = '\t' ∨ c = '\n' ∨ c = '\r' ∨ c = '\x0b' ∨ c = '\x0c'

/-- Python `str.strip()`. -/
def strip (s : Str) : Str :=
  ((s.dropWhile isSpaceChar).reverse.dropWhile isSpaceChar).reverse

/-- Python `str.lower()` on one character (ASCII case fold; the filenames
the program inspects are ASCII). -/
def lowerChar (c : Char) : Char :=
  if 'A' ≤ c ∧ c ≤ 'Z' then Char.ofNat (c.toNat + 32) else c

/-- Python `str.lower()`. -/
def lowerStr (s : Str) : Str := s.map lowerChar

/-- Python file `readlines` on text already normalised to `\n` line ends:
split after each newline, keeping the newline at the end of each line. -/
def readlinesAux (cur : Str) : Str → List Str
  | [] => if cur.isEmpty then [] else [cur.reverse]
  | '\n' :: rest => (cur.reverse ++ ['\n']) :: readlinesAux [] rest
  | c :: rest => readlinesAux (c :: cur) rest

/-- Python `f.readlines()` of a file whose content is `s`. -/
def readlines (s : Str) : List Str := readlinesAux [] s

/-- Python `str.replace(old, new)` for nonempty `old`: after emitting `new`
for a match the next `old.length - 1` characters are skipped (the skip
counter); matches are non-overlapping, left to right. -/
def replaceAllAux (old new : Str) : Nat → Str → Str
  | 0, [] => []
  | 0, c :: rest =>
      if List.isPrefixOf old (c :: rest) then new ++ replaceAllAux old new (old.length - 1) rest
      else c :: replaceAllAux old new 0 rest
  | _ + 1, [] => []
  | k + 1, _ :: rest => replaceAllAux old new k rest

/-- Python `str.replace(old, new)` (for empty `old`, Python interleaves
`new` around every character). -/
def replaceAll (old new s : Str) : Str :=
  match old with
  | [] => new ++ s.flatMap (fun c => c :: new)
  | _ :: _ => replaceAllAux old new 0 s

/-- Python substring containment `needle in hay`. -/
def containsSub (needle : Str) : Str → Bool
  | [] => List.isPrefixOf needle ([] : Str)
  | c :: t => List.isPrefixOf needle (c :: t) || containsSub needle t

/-- Value of a hexadecimal digit character, as accepted by Python
`int(s, 16)`. -/
def hexVal (c : Char) : Option Nat :=
  if '0' ≤ c ∧ c ≤ '9' then some (c.toNat - ('0').toNat)
  else if 'a' ≤ c ∧ c ≤ 'f' then some (c.toNat - ('a').toNat + 10)
  else if 'A' ≤ c ∧ c ≤ 'F' then some (c.toNat - ('A').toNat + 10)
  else none

/-- Digits of a hexadecimal literal after the first digit: Python allows a
single `_` between digits. -/
def parseHexTail (acc : Nat) : Str → Option Nat
  | [] => some acc
  | '_' :: c :: rest =>
      match hexVal c with
      | some d => parseHexTail (acc * 16 + d) rest
      | none => none
  | ['_'] => none
  | c :: rest =>
      match hexVal c with
      | some d => parseHexTail (acc * 16 + d) rest
      | none => none

/-- A nonempty run of hexadecimal digits (with Python's underscore rule). -/
def parseHexDigits : Str → Option Nat
  | [] => none
  | c :: rest =>
      match hexVal c with
      | some d => parseHexTail d rest
      | none => none

/-- The body of a Python base-16 integer literal: optional `0x`/`0X`
prefix (which may be followed by one underscore), then digits. -/
def parseHexBody : Str → Option Nat
  | '0' :: x :: rest =>
      if x = 'x' ∨ x = 'X' then
        match rest with
        | '_' :: rest2 => parseHexDigits rest2
        | _ => parseHexDigits rest
      else parseHexDigits ('0' :: x :: rest)
  | l => parseHexDigits l

/-- `decode_hex` (bfm.py line 94): Python `int(hex_str, 16)`, which strips
whitespace and accepts an optional sign; `none` models the `ValueError`
raised on malformed input. -/
def decode_hex (hex_str : Str) : Option Int :=
  match strip hex_str with
  | '+' :: rest => (parseHexBody rest).map (fun n => (n : Int))
  | '-' :: rest => (parseHexBody rest).map (fun n => -(n : Int))
  | t => (parseHexBody t).map (fun n => (n : Int))

/-- Uppercase hexadecimal digit character for a value below 16. -/
def hexDigitUpper (n : Nat) : Char :=
  if n < 10 then Char.ofNat (('0').toNat + n) else Char.ofNat (('A').toNat + (n - 10))

/-- Hexadecimal digits of `n`, most significant first; `fuel` bounds the
recursion (any `fuel ≥ n` yields all digits). -/
def natToHexAux : Nat → Nat → Str → Str
  | 0, _, acc => acc
  | _ + 1, 0, acc => acc
  | fuel + 1, n, acc => natToHexAux fuel (n / 16) (hexDigitUpper (n % 16) :: acc)

/-- Uppercase hexadecimal rendering of a natural number (no padding). -/
def natToHexUpper (n : Nat) : Str :=
  if n = 0 then ['0'] else natToHexAux n n []

/-- Zero-pad on the left to width `w`. -/
def padZeros (w : Nat) (s : Str) : Str := List.replicate (w - s.length) '0' ++ s

/-- `format_hex` (bfm.py lines 87-91): Python `f"{value:02X}"`; for a
negative value the sign counts toward the width.  The `reverse` parameter
is dead in the source (both branches return `hex_str`). -/
def format_hex (value : Int) (reverse : Bool) : Str :=
  let hex_str := if value < 0 then '-' :: padZeros 1 (natToHexUpper value.natAbs)
                 else padZeros 2 (natToHexUpper value.natAbs)
  if reverse then hex_str else hex_str

/-- The marker scanned for by `set_version`. -/
def VERSION_FEATURE : Str := ("VERSION_FEATURE").toList

/-- Suffix of `hay` that follows the first occurrence of `needle`;
`none` when `needle` does not occur. -/
def afterFirstOcc (needle : Str) : Str → Option Str
  | [] => if List.isPrefixOf needle ([] : Str) then some [] else none
  | c :: t =>
      if List.isPrefixOf needle (c :: t) then some (List.drop needle.length (c :: t))
      else afterFirstOcc needle t

/-- Tail of the regex `VERSION_FEATURE.*?=(.+)` applied to the text after
the marker: the lazy `.*?` scans (never across a newline) for the first
`=` that is followed by at least one non-newline character; the greedy
`(.+)` then captures up to the end of the line (excluding a newline). -/
def matchAfterEq : Str → Option Str
  | [] => none
  | c :: rest =>
      if c = '\n' then none
      else if c = '=' then
        match rest with
        | [] => none
        | c2 :: _ =>
            if c2 = '\n' then matchAfterEq rest
            else some (rest.takeWhile (fun x => x ≠ '\n'))
      else matchAfterEq rest

/-- One iteration of the scan loop in `set_version` (bfm.py lines 110-115):
a line yields a match only if it contains both the marker and `=` and the
regex `VERSION_FEATURE.*?=(.+)` matches. -/
def searchVersionLine (line : Str) : Option Str :=
  if containsSub VERSION_FEATURE line ∧ containsSub ['='] line then
    match afterFirstOcc VERSION_FEATURE line with
    | none => none
    | some suffix => matchAfterEq suffix
  else none

/-- The stripped `curr_version_str` extracted by the scan loop of
`set_version`: the capture of the first line on which the regex matches. -/
def findCurrVersionStr : List Str → Option Str
  | [] => none
  | line :: rest =>
      match searchVersionLine line with
      | some g => some (strip g)
      | none => findCurrVersionStr rest

/-- Errors `set_version` can raise once the file exists: `ValueError`
"VERSION_FEATURE not found" (line 118) and the `ValueError` raised by
`int(_, 16)` on a malformed version string (line 120). -/
inductive VersionError where
  | featureNotFound : VersionError
  | valueError : VersionError
deriving DecidableEq

/-- Observable outcome of a successful `set_version` call: the decoded
current version, the value written, and the lines written back. -/
structure SetVersionOut where
  curr : Int
  newVersion : Int
  newLines : List Str
deriving DecidableEq

/-- `set_version` (bfm.py lines 98-138) on the content of an existing
descriptor file.  The file write (`writelines`) is modelled by returning
`newLines`; the missing-file branch (line 101) is outside this model,
which takes the content of the file as input. -/
def set_version (content : Str) (version : Option Int) : Except VersionError SetVersionOut :=
  let lines := readlines content
  match findCurrVersionStr lines with
  | none => Except.error VersionError.featureNotFound
  | some curr_version_str =>
    match decode_hex curr_version_str with
    | none => Except.error VersionError.valueError
    | some curr_version =>
      let new_version : Int :=
        match version with
        | none => (curr_version - 1) % 100
        | some v => v % 100
      let new_lines := lines.map (fun line =>
        if containsSub VERSION_FEATURE line then
          replaceAll curr_version_str (format_hex new_version true) line
        else line)
      Except.ok ⟨curr_version, new_version, new_lines⟩

/-- True for the Windows path separators recognised by `os.path` /
`pathlib` on the platform this tool targets. -/
def isSep (c : Char) : Bool := c = '\\' ∨ c = '/'

/-- `os.path.join(a, b)` (ntpath): append a `\` unless `a` is empty or
already ends in a separator or a drive colon.  (The ntpath behaviour of
restarting at `b` when `b` is absolute is not modelled; every call site in
the source joins with a relative second component.) -/
def pathJoin (a b : Str) : Str :=
  match a.reverse with
  | [] => b
  | c :: _ => if isSep c ∨ c = ':' then a ++ b else a ++ ('\\' :: b)

/-- `os.path.basename`: everything after the last separator.  (ntpath also
splits a leading drive specification; the paths the program passes always
contain a separator after the drive, where this coincides.) -/
def basename (p : Str) : Str :=
  (p.reverse.takeWhile (fun c => isSep c = false)).reverse

/-- `pathlib.PurePath(p).name`: like `basename` but ignoring trailing
separators. -/
def pathName (p : Str) : Str :=
  basename ((p.reverse.dropWhile isSep).reverse)

/-- `pathlib` stem/suffix split of a final path component `name`:
`i = name.rfind('.')`; the suffix is `name[i:]` when `0 < i < len(name)-1`
and empty otherwise. -/
def lastDotSplit (name : Str) : Str × Str :=
  let tailLen := (name.reverse.takeWhile (fun c => c ≠ '.')).length
  if tailLen = name.length then (name, [])
  else
    let i := name.length - 1 - tailLen
    if 0 < i ∧ i < name.length - 1 then (name.take i, name.drop i) else (name, [])

/-- `pathlib.PurePath(p).stem`. -/
def pathStem (p : Str) : Str := (lastDotSplit (pathName p)).1

/-- `pathlib.PurePath(p).suffix`. -/
def pathSuffix (p : Str) : Str := (lastDotSplit (pathName p)).2

/-- `DEV_LOC` (bfm.py line 17). -/
def DEV_LOC : Str := ("C:\\Users\\felixb\\BIOS").toList

/-- `NET_LOC` (bfm.py line 19). -/
def NET_LOC : Str :=
  ("\\\\wks-file.ftc.rd.hpicorp.net\\MAIN_LAB\\SHARES\\LAB\\Brendon Felix\\Bootlegs").toList

/-- The configuration dictionary built by `create_config`
(bfm.py lines 63-71). -/
structure Config where
  name : Str
  repo_loc : Str
  pltpkg_loc : Str
  bld_path : Str
  bootleg_loc : Str
  network_loc : Str
  biosid_loc : Str
deriving DecidableEq

/-- Errors of configuration resolution: the `FileNotFoundError` of
`create_config` (line 59) and the `ValueError` of `get_config` (line 84). -/
inductive ConfigError where
  | repoNotFound : ConfigError
  | unknownPlatform : ConfigError
deriving DecidableEq

/-- `get_repo_loc` (bfm.py lines 46-50). -/
def get_repo_loc (tree : Option Str) (dflt : Str) : Str :=
  match tree with
  | some t => pathJoin DEV_LOC t
  | none => pathJoin DEV_LOC dflt

/-- `create_config` (bfm.py lines 53-71); the existence check on the
repository tree consults the filesystem oracle `fsExists`. -/
def create_config (name : Str) (tree : Option Str) (default_tree : Str) (biosid_loc : Str)
    (fsExists : Str → Bool) : Except ConfigError Config :=
  let repo_loc := get_repo_loc tree default_tree
  if fsExists repo_loc = false then Except.error ConfigError.repoNotFound
  else
    let pltpkg_loc := pathJoin repo_loc (("HpPlatformPkg").toList)
    Except.ok ⟨name, repo_loc, pltpkg_loc,
      pathJoin (pathJoin pltpkg_loc (("BLD").toList)) (("FV").toList),
      pathJoin (pathJoin DEV_LOC (("Bootlegs").toList)) name,
      pathJoin NET_LOC name,
      pathJoin pltpkg_loc biosid_loc⟩

/-- `get_config` (bfm.py lines 74-84). -/
def get_config (platform : Option Str) (tree : Option Str) (fsExists : Str → Bool) :
    Except ConfigError Config :=
  if platform = some (("U60").toList) then
    create_config (("Glacier").toList) tree (("HpWintersWks").toList)
      (("MultiProject/U60Glacier/BLD/BiosId.env").toList) fsExists
  else if platform = some (("U61").toList) then
    create_config (("Winters").toList) tree (("HpWintersWks").toList)
      (("MultiProject/U61Blizzard/BLD/BiosId.env").toList) fsExists
  else if platform = some (("U65").toList) then
    create_config (("Avalanche").toList) tree (("HpAvalancheWks").toList)
      (("BLD/RSPS/BiosId.env").toList) fsExists
  else if platform = some (("X60").toList) ∨ platform = none then
    create_config (("Springs").toList) tree (("HpSpringsWks").toList)
      (("MultiProject/X60Steamboat/BLD/BiosId.env").toList) fsExists
  else Except.error ConfigError.unknownPlatform

/-- One entry of a directory listing: filename (within the directory),
size in bytes, and modification time. -/
structure FileEntry where
  name : Str
  size : Nat
  mtime : Int
deriving DecidableEq

/-- What the filesystem says about the path handed to `get_binary`:
a directory (with its listing), a regular file (with its stat data), or
neither. -/
inductive PathKind where
  | directory : List FileEntry → PathKind
  | regularFile : Nat → Int → PathKind
  | missing : PathKind

/-- The dictionary returned by `get_binary` (name, size, modified). -/
structure BinaryInfo where
  name : Str
  size : Nat
  modified : Int
deriving DecidableEq

/-- `glob.glob(os.path.join(path, "*.bin"))` membership test on a
filename: ends in `.bin` and, per glob's hidden-file rule, does not start
with a dot.  (Windows `glob` compares case-insensitively via `normcase`,
hence the `lowerStr`.) -/
def binGlobMatch (name : Str) : Bool :=
  List.isSuffixOf ((".bin").toList) (lowerStr name) ∧ (lowerStr name).head? ≠ some '.'

/-- The candidate filter of `get_binary` (bfm.py line 229): the lowercased
basename must not contain `pvt` and must contain `32` or `64`. -/
def validFile (name : Str) : Bool :=
  containsSub (("pvt").toList) (lowerStr name) = false ∧
    (containsSub (("32").toList) (lowerStr name) ∨ containsSub (("64").toList) (lowerStr name))

/-- `valid_files` as computed by `get_binary` (bfm.py lines 222-230). -/
def valid_files (entries : List FileEntry) : List FileEntry :=
  (entries.filter (fun f => binGlobMatch f.name)).filter (fun f => validFile f.name)

/-- The comparison step of Python `max(valid_files, key=os.path.getmtime)`:
a later element replaces the current maximum only when strictly greater. -/
def maxStep (best x : FileEntry) : FileEntry :=
  if best.mtime < x.mtime then x else best

/-- Python `max(l, key=mtime)` returning `none` for the empty list (the
source guards with `if valid_files:`). -/
def maxByMtime : List FileEntry → Option FileEntry
  | [] => none
  | e :: rest => some (rest.foldl maxStep e)

/-- `get_binary` (bfm.py lines 218-251).  `osError` models an
`OSError`/`IOError` raised anywhere inside the `try` block (stat, scan);
the handler swallows it and the function returns `None`. -/
def get_binary (path : Str) (kind : PathKind) (osError : Bool) : Option BinaryInfo :=
  if osError then none
  else
    match kind with
    | PathKind.directory entries =>
        match maxByMtime (valid_files entries) with
        | none => none
        | some latest => some ⟨pathJoin path latest.name, latest.size, latest.mtime⟩
    | PathKind.regularFile size mtime => some ⟨path, size, mtime⟩
    | PathKind.missing => none

/-- Observable outcome of `save_bootleg` (bfm.py lines 201-215): the
computed destination filename, the full destination path, and the bytes
written there.  `shutil.copy2` is an external collaborator whose contract
is to copy the source bytes, so the written content is the source content. -/
structure SaveResult where
  bootleg_basename : Str
  bootleg_path : Str
  written : Str
deriving DecidableEq

/-- `save_bootleg` (bfm.py lines 201-215) applied to a source file whose
content is `content`. -/
def save_bootleg (bootleg_loc binary_path content : Str) (append : Option Str) : SaveResult :=
  let bootleg_basename :=
    match append with
    | none => basename binary_path
    | some a => pathStem binary_path ++ '_' :: (a ++ pathSuffix binary_path)
  ⟨bootleg_basename, pathJoin bootleg_loc bootleg_basename, content⟩

/-- The command-line options of `main` (bfm.py lines 311-336), as they
stand after `check_and_create_directories` has possibly cleared
`save`/`network`/`output` (lines 179-191). -/
structure Args where
  build : Bool
  release : Bool
  bootleg : Bool
  save : Bool
  network : Bool
  flash : Bool
  path : Option Str
  append : Option Str
  output : Option Str
  decrement : Bool
  set_version : Option Int
deriving DecidableEq

/-- Results of the external world consulted by one pipeline run: what each
locate step would find, and whether each fallible external step succeeds. -/
structure Oracle where
  findBuildResult : Option BinaryInfo
  findBootlegResult : Option BinaryInfo
  findPathResult : Option BinaryInfo
  setVersionOk : Bool
  buildOk : Bool
  saveLocalOk : Bool
  saveNetworkOk : Bool
  saveOutputOk : Bool
  flashOk : Bool
deriving DecidableEq

/-- Externally visible actions the pipeline can perform, in order. -/
inductive PAction where
  | setVersionAct : Option Int → PAction
  | buildAct : Bool → PAction
  | findBuildAct : PAction
  | findBootlegAct : PAction
  | findPathAct : Str → PAction
  | saveAct : Str → Str → Option Str → PAction
  | flashAct : Str → PAction
deriving DecidableEq

/-- The exceptions that can abort the pipeline between stage selection and
completion (each reaches the handler at bfm.py lines 388-390). -/
inductive PipelineError where
  | versionError : PipelineError
  | buildError : PipelineError
  | noBinary : PipelineError
  | archiveError : PipelineError
  | flashError : PipelineError
deriving DecidableEq

/-- Python truthiness of the output option as used in
`if args.output:` (line 379): set and nonempty. -/
def outputTruthy (o : Option Str) : Bool :=
  match o with
  | some s => s.isEmpty = false
  | none => false

/-- The `set_version` calls made inside the build branch
(bfm.py lines 353-356): an explicit `-v` value wins over `-d`. -/
def versionActs (args : Args) : List PAction :=
  match args.set_version with
  | some v => [PAction.setVersionAct (some v)]
  | none => if args.decrement then [PAction.setVersionAct none] else []

/-- Whether the version-stamping step (if any) succeeds. -/
def versionOk (args : Args) (o : Oracle) : Bool :=
  match args.set_version with
  | some _ => o.setVersionOk
  | none => if args.decrement then o.setVersionOk else true

/-- The flash step (bfm.py lines 383-386): attempted only when requested;
a failing `dpcmd` raises `RuntimeError("Flash failed")`. -/
def flashStage (args : Args) (o : Oracle) (b : BinaryInfo) :
    List PAction × Option PipelineError :=
  if args.flash then
    if o.flashOk then ([PAction.flashAct b.name], none)
    else ([PAction.flashAct b.name], some PipelineError.flashError)
  else ([], none)

/-- The save steps and the flash step (bfm.py lines 371-386), run once a
binary has been obtained.  Saves run in the order local, network, custom
output; an `OSError` in a copy propagates (uncaught in the source) and
aborts the rest of the run. -/
def savesAndFlash (cfg : Config) (args : Args) (o : Oracle) (b : BinaryInfo) :
    List PAction × Option PipelineError :=
  let localA := if args.save then [PAction.saveAct cfg.bootleg_loc b.name args.append] else []
  if args.save = true ∧ o.saveLocalOk = false then (localA, some PipelineError.archiveError)
  else
    let netA := if args.network then [PAction.saveAct cfg.network_loc b.name args.append] else []
    if args.network = true ∧ o.saveNetworkOk = false then
      (localA ++ netA, some PipelineError.archiveError)
    else
      let outA :=
        match args.output with
        | some out => if outputTruthy (some out) then [PAction.saveAct out b.name args.append] else []
        | none => []
      if outputTruthy args.output = true ∧ o.saveOutputOk = false then
        (localA ++ netA ++ outA, some PipelineError.archiveError)
      else
        let fr := flashStage args o b
        (localA ++ netA ++ outA ++ fr.1, fr.2)

/-- The `if binary is None` check (bfm.py lines 368-369) and everything
after it: `None` raises `RuntimeError("No binary found")`; otherwise the
save and flash steps run. -/
def afterObtain (cfg : Config) (args : Args) (o : Oracle) (acts : List PAction)
    (binary : Option BinaryInfo) : List PAction × Option PipelineError :=
  match binary with
  | none => (acts, some PipelineError.noBinary)
  | some b =>
      let r := savesAndFlash cfg args o b
      (acts ++ r.1, r.2)

/-- The pipeline of `main` from stage selection onward (bfm.py lines
350-386): the `if/elif` chain selects exactly one way to obtain a binary,
then the result is checked and the save/flash steps run.  The returned
list is the sequence of external actions performed; the returned error is
the exception (if any) that reached the handler at lines 388-390. -/
def runPipeline (cfg : Config) (args : Args) (o : Oracle) :
    List PAction × Option PipelineError :=
  if args.build then
    if versionOk args o = false then (versionActs args, some PipelineError.versionError)
    else if o.buildOk = false then
      (versionActs args ++ [PAction.buildAct args.release], some PipelineError.buildError)
    else
      afterObtain cfg args o
        (versionActs args ++ [PAction.buildAct args.release, PAction.findBuildAct])
        o.findBuildResult
  else if args.bootleg then
    afterObtain cfg args o [PAction.findBootlegAct] o.findBootlegResult
  else
    match args.path with
    | some p => afterObtain cfg args o [PAction.findPathAct p] o.findPathResult
    | none => afterObtain cfg args o [PAction.findBuildAct] o.findBuildResult

/-- The exception handler of `main` (bfm.py lines 388-390): any pipeline
error is reported and the process exits with status 1, otherwise 0. -/
def exitCode (err : Option PipelineError) : Nat :=
  match err with
  | none => 0
  | some _ => 1

/-- The locate result of the stage selected by the `if/elif` chain of
`main` (bfm.py lines 352-366). -/
def selectedFindResult (args : Args) (o : Oracle) : Option BinaryInfo :=
  if args.build then o.findBuildResult
  else if args.bootleg then o.findBootlegResult
  else
    match args.path with
    | some _ => o.findPathResult
    | none => o.findBuildResult

/-- Is this action one of the binary-obtaining locate steps? -/
def isFindAct : PAction → Bool
  | PAction.findBuildAct => true
  | PAction.findBootlegAct => true
  | PAction.findPathAct _ => true
  | _ => false

/-- Is this action a save or a flash? -/
def isSaveOrFlash : PAction → Bool
  | PAction.saveAct _ _ _ => true
  | PAction.flashAct _ => true
  | _ => false

/-- Is this action an invocation of the Version Stamper? -/
def isSetVersionAct : PAction → Bool
  | PAction.setVersionAct _ => true
  | _ => false

/-! Concrete instances used by witnesses and counterexamples. -/

/-- A descriptor file with one marker line holding version `00`. -/
def c1content : Str := ("VERSION_FEATURE  = 00\n").toList

/-- Outcome of `set_version` on `c1content` with no explicit version. -/
def c1out : SetVersionOut := ⟨0, 99, [("VERSION_FEATURE  = 63\n").toList]⟩

/-- A descriptor file whose second line contains the marker (without `=`)
and also contains the version text `05`. -/
def c2content : Str := ("VERSION_FEATURE = 05\nVERSION_FEATURE_OLD 05\n").toList

/-- Outcome of `set_version` on `c2content` with no explicit version:
both lines are rewritten. -/
def c2out : SetVersionOut :=
  ⟨5, 4, [("VERSION_FEATURE = 04\n").toList, ("VERSION_FEATURE_OLD 04\n").toList]⟩

/-- A descriptor file whose first line carries no marker. -/
def c2wContent : Str := ("# build metadata\nVERSION_FEATURE = 10\n").toList

/-- Outcome of `set_version` on `c2wContent` with no explicit version. -/
def c2wOut : SetVersionOut :=
  ⟨16, 15, [("# build metadata\n").toList, ("VERSION_FEATURE = 0F\n").toList]⟩

/-- A source binary path for the Archiver example. -/
def c6path : Str := ("C:\\build\\foo.bin").toList

/-- Content of the Archiver example's source binary. -/
def c6content : Str := ("BYTES").toList

/-- A directory path handed to the Binary Locator. -/
def c3path : Str := ("C:\\bld").toList

/-- A directory holding only pre-production-marked binaries. -/
def c3pvtEntries : List FileEntry :=
  [⟨("Apvt32.bin").toList, 100, 5⟩, ⟨("Bpvt64.bin").toList, 200, 9⟩]

/-- A directory with `A32.bin` (newer) and `Bpvt64.bin` (older,
pre-production). -/
def c3exEntries : List FileEntry :=
  [⟨("A32.bin").toList, 100, 9⟩, ⟨("Bpvt64.bin").toList, 200, 5⟩]

/-- A resolved configuration used by pipeline witnesses. -/
def cfgW : Config :=
  ⟨("Springs").toList, ("C:\\Users\\felixb\\BIOS\\HpSpringsWks").toList,
    ("C:\\pkg").toList, ("C:\\pkg\\BLD\\FV").toList,
    ("C:\\Users\\felixb\\BIOS\\Bootlegs\\Springs").toList,
    ("N:\\Bootlegs\\Springs").toList, ("C:\\pkg\\BiosId.env").toList⟩

/-- Options of the end-to-end no-binary scenario: no build, no
reuse-latest, no explicit path, saves and flash requested off. -/
def argsC4 : Args := ⟨false, false, false, false, false, false, none, none, none, false, none⟩

/-- Oracle in which no locate step finds a binary. -/
def oracleW : Oracle := ⟨none, none, none, true, true, true, true, true, true⟩

/-- An explicit binary path used by the stage-selection witness. -/
def pW : Str := ("C:\\x\\b.bin").toList

/-- Options selecting the explicit-path stage. -/
def argsC5 : Args := ⟨false, false, false, false, false, false, some pW, none, none, false, none⟩

/-- Options with build off but both version options set (they must be
ignored). -/
def argsC9 : Args := ⟨false, false, true, false, false, false, none, none, none, true, some 5⟩

example : readlines (("a\nbc\n").toList) = [("a\n").toList, ("bc\n").toList] := by decide
example : decode_hex (("05").toList) = some 5 := by decide
example : decode_hex (("fF").toList) = some 255 := by decide
example : decode_hex (("-2").toList) = some (-2) := by decide
example : decode_hex (("0x1A").toList) = some 26 := by decide
example : decode_hex (("").toList) = none := by decide
example : format_hex 99 true = ("63").toList := by decide
example : format_hex 4 false = ("04").toList := by decide
example : replaceAll (("05").toList) (("63").toList) (("a05b05").toList) = ("a63b63").toList := by decide
example :
    set_version (("VERSION_FEATURE  = 00\n").toList) none =
      Except.ok ⟨0, 99, [("VERSION_FEATURE  = 63\n").toList]⟩ := by rfl

/-- Claim C1: for every run of `set_version` on a descriptor file whose
scanned marker line holds hex text decoding to an integer `current`: with
no explicit version the value written is `(current - 1) % 100` — so
`1..99` map to `current - 1` and `0` maps to `99` — and with an explicit
integer `e` the value written is `e % 100`; the value written is never
negative. -/
theorem c1_version_stamp_arithmetic (content : Str) (version : Option Int)
    (out : SetVersionOut) (h : set_version content version = Except.ok out) :
    (0 ≤ out.newVersion ∧ out.newVersion < 100)
    ∧ (version = none →
        out.newVersion = (out.curr - 1) % 100
        ∧ (1 ≤ out.curr → out.curr ≤ 99 → out.newVersion = out.curr - 1)
        ∧ (out.curr = 0 → out.newVersion = 99))
    ∧ (∀ e : Int, version = some e → out.newVersion = e % 100) := by
  rcases hf : findCurrVersionStr (readlines content) with _ | cvs
  · simp [set_version, hf] at h
  · rcases hd : decode_hex cvs with _ | curr
    · simp [set_version, hf, hd] at h
    · simp only [set_version, hf, hd] at h
      injection h with h
      subst h
      cases version with
      | none =>
          dsimp only
          refine ⟨⟨by omega, by omega⟩, ?_, ?_⟩
          · intro _
            exact ⟨rfl, fun h1 h2 => by omega, fun h0 => by omega⟩
          · intro e he
            cases he
      | some e =>
          dsimp only
          refine ⟨⟨by omega, by omega⟩, ?_, ?_⟩
          · intro hn
            cases hn
          · intro e2 he
            injection he with he2
            subst he2
            rfl

/-- Witness for C1: on `c1content` (current version `00`) the decrement
wraps to `99`. -/
theorem c1_version_stamp_arithmetic_witness : c1out.newVersion = 99 ∧ c1out.curr = 0 :=
  ⟨((c1_version_stamp_arithmetic c1content none c1out (by rfl)).2.1 rfl).2.2 rfl, rfl⟩

/-- Counterexample to claim C2 as stated: on `c2content` the matched line
is line 0, yet line 1 — which contains the `VERSION_FEATURE` marker but
no `=` — is also rewritten (`05` becomes `04`), so not every other line
is byte-identical after the rewrite. -/
theorem c2_rewrite_frame_counterexample :
    set_version c2content none = Except.ok c2out
    ∧ (readlines c2content).get? 1 = some (("VERSION_FEATURE_OLD 05\n").toList)
    ∧ c2out.newLines.get? 1 ≠ (readlines c2content).get? 1 :=
  ⟨by rfl, by rfl, by decide⟩

/-- Claim C2 (amended): the rewrite performed by `set_version` replaces
every occurrence of the matched version substring on every line
containing the `VERSION_FEATURE` marker (with or without an `=`), and
every line not containing the marker is byte-identical after the
rewrite. -/
theorem c2_rewrite_frame (content : Str) (version : Option Int) (out : SetVersionOut)
    (cvs : Str) (hf : findCurrVersionStr (readlines content) = some cvs)
    (hok : set_version content version = Except.ok out) :
    out.newLines.length = (readlines content).length
    ∧ ∀ i line, (readlines content).get? i = some line →
        (containsSub VERSION_FEATURE line = false → out.newLines.get? i = some line)
        ∧ (containsSub VERSION_FEATURE line = true →
            out.newLines.get? i = some (replaceAll cvs (format_hex out.newVersion true) line)) := by
  rcases hd : decode_hex cvs with _ | curr
  · simp [set_version, hf, hd] at hok
  · simp only [set_version, hf, hd] at hok
    injection hok with hok
    subst hok
    dsimp only
    constructor
    · exact List.length_map _ _
    · intro i line hline
      constructor
      · intro hno
        rw [List.get?_map, hline]
        simp [hno]
      · intro hyes
        rw [List.get?_map, hline]
        simp [hyes]

/-- Witness for C2 (amended): on `c2wContent` the markerless comment line
is returned unchanged. -/
theorem c2_rewrite_frame_witness :
    c2wOut.newLines.get? 0 = some (("# build metadata\n").toList) :=
  ((c2_rewrite_frame c2wContent none c2wOut (("10").toList) (by rfl) (by rfl)).2
    0 (("# build metadata\n").toList) (by rfl)).1 (by decide)

set_option maxRecDepth 8000 in
/-- Claim C8: for every integer `n` in `[0, 255]`, encoding `n` with
`format_hex` (two-character uppercase hexadecimal) and decoding with
`decode_hex` returns `n`. -/
theorem c8_hex_round_trip :
    ∀ n : Nat, n < 256 → decode_hex (format_hex (n : Int) false) = some (n : Int) := by
  decide

/-- Witness for C8 at `n = 165` (hex `A5`). -/
theorem c8_hex_round_trip_witness :
    decode_hex (format_hex (165 : Int) false) = some (165 : Int) :=
  c8_hex_round_trip 165 (by decide)

/-- Claim C10: for every tree override and filesystem state, `get_config`
with the platform argument absent produces exactly the same configuration
record as `get_config` with platform `X60` (the Springs target). -/
theorem c10_default_platform (tree : Option Str) (fsExists : Str → Bool) :
    get_config none tree fsExists = get_config (some (("X60").toList)) tree fsExists := rfl

/-- Claim C7: `get_binary` is a total function returning an optional
result; on a path that is neither an existing regular file nor a
directory it returns `none`, and when an OS error occurs during
stat/scan the error is swallowed and it returns `none`. -/
theorem c7_locator_absence (path : Str) (kind : PathKind) :
    get_binary path PathKind.missing false = none
    ∧ get_binary path kind true = none :=
  ⟨rfl, rfl⟩

/-- Claim C6: `save_bootleg` writes the copy under the unchanged source
basename when no suffix is given, under `{stem}_{suffix}{extension}` when
a suffix is given, and the destination content equals the source
content. -/
theorem c6_archiver_naming (bootleg_loc binary_path content : Str) (append : Option Str) :
    ((append = none →
        (save_bootleg bootleg_loc binary_path content append).bootleg_basename
          = basename binary_path)
      ∧ (∀ a : Str, append = some a →
          (save_bootleg bootleg_loc binary_path content append).bootleg_basename
            = pathStem binary_path ++ '_' :: (a ++ pathSuffix binary_path)))
    ∧ (save_bootleg bootleg_loc binary_path content append).written = content := by
  refine ⟨⟨?_, ?_⟩, rfl⟩
  · intro h
    subst h
    rfl
  · intro a h
    subst h
    rfl

/-- Witness for C6 at the spec example: source `foo.bin` with suffix
`test` yields destination name `foo_test.bin` and identical content. -/
theorem c6_archiver_naming_witness :
    (save_bootleg DEV_LOC c6path c6content (some (("test").toList))).bootleg_basename
      = pathStem c6path ++ '_' :: ((("test").toList) ++ pathSuffix c6path)
    ∧ pathStem c6path ++ '_' :: ((("test").toList) ++ pathSuffix c6path)
      = ("foo_test.bin").toList
    ∧ (save_bootleg DEV_LOC c6path c6content (some (("test").toList))).written = c6content :=
  ⟨(c6_archiver_naming DEV_LOC c6path c6content (some (("test").toList))).1.2
      (("test").toList) rfl,
    by decide,
    (c6_archiver_naming DEV_LOC c6path c6content (some (("test").toList))).2⟩

/-- The result of folding `maxStep` is one of the candidates. -/
theorem foldl_maxStep_mem (rest : List FileEntry) (e : FileEntry) :
    rest.foldl maxStep e ∈ e :: rest := by
  induction rest generalizing e with
  | nil => exact List.mem_cons_self _ _
  | cons x xs ih =>
      rw [List.foldl_cons]
      rcases List.mem_cons.mp (ih (maxStep e x)) with h1 | h1
      · rw [h1]
        by_cases hc : e.mtime < x.mtime <;> simp [maxStep, hc, List.mem_cons]
      · exact List.mem_cons_of_mem _ (List.mem_cons_of_mem _ h1)

/-- The result of folding `maxStep` has the greatest modification time
among the start value and the list. -/
theorem foldl_maxStep_ge (rest : List FileEntry) (e : FileEntry) :
    e.mtime ≤ (rest.foldl maxStep e).mtime
    ∧ ∀ x ∈ rest, x.mtime ≤ (rest.foldl maxStep e).mtime := by
  induction rest generalizing e with
  | nil => exact ⟨le_refl _, fun x hx => absurd hx (List.not_mem_nil x)⟩
  | cons y ys ih =>
      rw [List.foldl_cons]
      obtain ⟨h1, h2⟩ := ih (maxStep e y)
      have he : e.mtime ≤ (maxStep e y).mtime := by
        unfold maxStep
        split <;> omega
      have hy : y.mtime ≤ (maxStep e y).mtime := by
        unfold maxStep
        split <;> omega
      refine ⟨le_trans he h1, ?_⟩
      intro x hx
      rcases List.mem_cons.mp hx with rfl | hx2
      · exact le_trans hy h1
      · exact h2 x hx2

/-- Claim C3: on a directory, `get_binary` considers only entries passing
the `*.bin` glob, keeps exactly the candidates whose lowercased filename
avoids `pvt` and contains `32` or `64`, and returns the surviving
candidate with the latest modification time; it returns `none` exactly
when no candidate survives, so with survivors present a binary is always
returned. -/
theorem c3_locator_directory (path : Str) (entries : List FileEntry) :
    (get_binary path (PathKind.directory entries) false = none ↔ valid_files entries = [])
    ∧ (∀ e : FileEntry, e ∈ valid_files entries ↔
        e ∈ entries ∧ binGlobMatch e.name = true
          ∧ containsSub (("pvt").toList) (lowerStr e.name) = false
          ∧ (containsSub (("32").toList) (lowerStr e.name) = true
              ∨ containsSub (("64").toList) (lowerStr e.name) = true))
    ∧ (∀ b : BinaryInfo, get_binary path (PathKind.directory entries) false = some b →
        ∃ e, e ∈ valid_files entries
          ∧ b = ⟨pathJoin path e.name, e.size, e.mtime⟩
          ∧ ∀ e2 ∈ valid_files entries, e2.mtime ≤ e.mtime) := by
  refine ⟨?_, ?_, ?_⟩
  · constructor
    · intro h
      rcases hvf : valid_files entries with _ | ⟨v, vs⟩
      · rfl
      · simp [get_binary, maxByMtime, hvf] at h
    · intro h
      simp [get_binary, h, maxByMtime]
  · intro e
    simp only [valid_files, List.mem_filter, validFile, decide_eq_true_eq]
    constructor
    · rintro ⟨⟨he, hg⟩, hv⟩
      exact ⟨he, hg, hv.1, by simpa using hv.2⟩
    · rintro ⟨he, hg, hp, hv⟩
      exact ⟨⟨he, hg⟩, hp, by simpa using hv⟩
  · intro b hb
    rcases hvf : valid_files entries with _ | ⟨v, vs⟩
    · simp [get_binary, maxByMtime, hvf] at hb
    · simp [get_binary, maxByMtime, hvf] at hb
      refine ⟨vs.foldl maxStep v, foldl_maxStep_mem vs v, ?_, ?_⟩
      · exact hb.symm
      · intro e2 he2
        rcases List.mem_cons.mp he2 with rfl | h2
        · exact (foldl_maxStep_ge vs e2).1
        · exact (foldl_maxStep_ge vs v).2 e2 h2

/-- Witness for C3 at the spec examples: a directory holding only
pre-production-marked binaries yields not-found, and a directory with a
surviving candidate (`A32.bin`) yields a binary. -/
theorem c3_locator_directory_witness :
    get_binary c3path (PathKind.directory c3pvtEntries) false = none
    ∧ get_binary c3path (PathKind.directory c3exEntries) false ≠ none :=
  ⟨(c3_locator_directory c3path c3pvtEntries).1.mpr (by rfl),
    fun h => (by decide : ¬(valid_files c3exEntries = []))
      ((c3_locator_directory c3path c3exEntries).1.mp h)⟩

example :
    get_binary c3path (PathKind.directory c3exEntries) false
      = some ⟨pathJoin c3path (("A32.bin").toList), 100, 9⟩ := by rfl

/-- Membership in a conditional singleton save action. -/
theorem mem_if_save (c : Bool) (d n : Str) (ap : Option Str) (a : PAction)
    (ha : a ∈ (if c = true then [PAction.saveAct d n ap] else [])) :
    isSaveOrFlash a = true := by
  cases c
  · simp at ha
  · simp at ha
    subst ha
    rfl

/-- Every action emitted by the flash step is a flash. -/
theorem flashStage_saveOrFlash (args : Args) (o : Oracle) (b : BinaryInfo) (a : PAction)
    (ha : a ∈ (flashStage args o b).1) : isSaveOrFlash a = true := by
  cases hf : args.flash with
  | false => simp [flashStage, hf] at ha
  | true =>
      cases hk : o.flashOk <;> simp [flashStage, hf, hk] at ha <;> subst ha <;> rfl

/-- Every action emitted after a binary has been obtained is a save or a
flash. -/
theorem savesAndFlash_saveOrFlash (cfg : Config) (args : Args) (o : Oracle) (b : BinaryInfo)
    (a : PAction) (ha : a ∈ (savesAndFlash cfg args o b).1) : isSaveOrFlash a = true := by
  simp only [savesAndFlash] at ha
  split at ha
  · exact mem_if_save _ _ _ _ _ ha
  · split at ha
    · rcases List.mem_append.mp ha with h | h
      · exact mem_if_save _ _ _ _ _ h
      · exact mem_if_save _ _ _ _ _ h
    · split at ha
      · rcases List.mem_append.mp ha with h | h
        · rcases List.mem_append.mp h with h2 | h2
          · exact mem_if_save _ _ _ _ _ h2
          · exact mem_if_save _ _ _ _ _ h2
        · rcases ho : args.output with _ | out
          · simp only [ho] at h
            simp at h
          · simp only [ho] at h
            exact mem_if_save _ _ _ _ _ h
      · rcases List.mem_append.mp ha with h | h
        · rcases List.mem_append.mp h with h2 | h2
          · rcases List.mem_append.mp h2 with h3 | h3
            · exact mem_if_save _ _ _ _ _ h3
            · exact mem_if_save _ _ _ _ _ h3
          · rcases ho : args.output with _ | out
            · simp only [ho] at h2
              simp at h2
            · simp only [ho] at h2
              exact mem_if_save _ _ _ _ _ h2
        · exact flashStage_saveOrFlash args o b a h

/-- A save or flash action is neither a locate step nor a version stamp. -/
theorem saveOrFlash_not_other (a : PAction) (h : isSaveOrFlash a = true) :
    isFindAct a = false ∧ isSetVersionAct a = false := by
  cases a <;> simp_all [isSaveOrFlash, isFindAct, isSetVersionAct]

/-- Locate actions in the trace of `afterObtain` all come from the prefix
accumulated before the binary check. -/
theorem afterObtain_filter_find (cfg : Config) (args : Args) (o : Oracle)
    (acts : List PAction) (binary : Option BinaryInfo) :
    ((afterObtain cfg args o acts binary).1.filter isFindAct) = acts.filter isFindAct := by
  cases binary with
  | none => rfl
  | some b =>
      show ((acts ++ (savesAndFlash cfg args o b).1).filter isFindAct) = _
      rw [List.filter_append]
      have h : ((savesAndFlash cfg args o b).1.filter isFindAct) = [] := by
        rw [List.filter_eq_nil]
        intro a ha
        simp [(saveOrFlash_not_other a (savesAndFlash_saveOrFlash cfg args o b a ha)).1]
      rw [h, List.append_nil]

/-- Version-stamp actions in the trace of `afterObtain` all come from the
prefix accumulated before the binary check. -/
theorem afterObtain_filter_setv (cfg : Config) (args : Args) (o : Oracle)
    (acts : List PAction) (binary : Option BinaryInfo) :
    ((afterObtain cfg args o acts binary).1.filter isSetVersionAct)
      = acts.filter isSetVersionAct := by
  cases binary with
  | none => rfl
  | some b =>
      show ((acts ++ (savesAndFlash cfg args o b).1).filter isSetVersionAct) = _
      rw [List.filter_append]
      have h : ((savesAndFlash cfg args o b).1.filter isSetVersionAct) = [] := by
        rw [List.filter_eq_nil]
        intro a ha
        simp [(saveOrFlash_not_other a (savesAndFlash_saveOrFlash cfg args o b a ha)).2]
      rw [h, List.append_nil]

/-- The version-stamp prefix of the build stage contains no save or flash
action. -/
theorem versionActs_filter_saveOrFlash (args : Args) :
    (versionActs args).filter isSaveOrFlash = [] := by
  unfold versionActs
  rcases hsv : args.set_version with _ | v
  · cases hd : args.decrement <;> rfl
  · rfl

/-- The version-stamp prefix of the build stage contains no locate
action. -/
theorem versionActs_filter_find (args : Args) :
    (versionActs args).filter isFindAct = [] := by
  unfold versionActs
  rcases hsv : args.set_version with _ | v
  · cases hd : args.decrement <;> rfl
  · rfl

/-- Claim C4: whenever the locate step of the selected stage returns
not-found (and the steps before it succeeded), the pipeline ends with the
no-binary error, the process exit status is 1, and the trace contains no
save and no flash action. -/
theorem c4_no_binary_aborts (cfg : Config) (args : Args) (o : Oracle)
    (hsel : selectedFindResult args o = none)
    (hpre : args.build = true → versionOk args o = true ∧ o.buildOk = true) :
    (runPipeline cfg args o).2 = some PipelineError.noBinary
    ∧ exitCode (runPipeline cfg args o).2 = 1
    ∧ (runPipeline cfg args o).1.filter isSaveOrFlash = [] := by
  cases hb : args.build with
  | true =>
      obtain ⟨hv, hbo⟩ := hpre hb
      have hres : o.findBuildResult = none := by
        simpa [selectedFindResult, hb] using hsel
      have hrun : runPipeline cfg args o =
          (versionActs args ++ [PAction.buildAct args.release, PAction.findBuildAct],
            some PipelineError.noBinary) := by
        simp [runPipeline, hb, hv, hbo, hres, afterObtain]
      rw [hrun]
      refine ⟨rfl, rfl, ?_⟩
      rw [List.filter_append, versionActs_filter_saveOrFlash]
      rfl
  | false =>
      cases hg : args.bootleg with
      | true =>
          have hres : o.findBootlegResult = none := by
            simpa [selectedFindResult, hb, hg] using hsel
          have hrun : runPipeline cfg args o =
              ([PAction.findBootlegAct], some PipelineError.noBinary) := by
            simp [runPipeline, hb, hg, hres, afterObtain]
          rw [hrun]
          exact ⟨rfl, rfl, rfl⟩
      | false =>
          rcases hp : args.path with _ | p
          · have hres : o.findBuildResult = none := by
              simpa [selectedFindResult, hb, hg, hp] using hsel
            have hrun : runPipeline cfg args o =
                ([PAction.findBuildAct], some PipelineError.noBinary) := by
              simp [runPipeline, hb, hg, hp, hres, afterObtain]
            rw [hrun]
            exact ⟨rfl, rfl, rfl⟩
          · have hres : o.findPathResult = none := by
              simpa [selectedFindResult, hb, hg, hp] using hsel
            have hrun : runPipeline cfg args o =
                ([PAction.findPathAct p], some PipelineError.noBinary) := by
              simp [runPipeline, hb, hg, hp, hres, afterObtain]
            rw [hrun]
            exact ⟨rfl, rfl, rfl⟩

/-- Witness for C4 at the end-to-end scenario: no build, reuse-latest
disabled, explicit path unset, empty build output — the fallback scan
finds nothing, the run reports no-binary, exits 1 and performs no save or
flash. -/
theorem c4_no_binary_aborts_witness :
    (runPipeline cfgW argsC4 oracleW).2 = some PipelineError.noBinary
    ∧ exitCode (runPipeline cfgW argsC4 oracleW).2 = 1
    ∧ (runPipeline cfgW argsC4 oracleW).1.filter isSaveOrFlash = [] :=
  c4_no_binary_aborts cfgW argsC4 oracleW (by rfl) (fun hb => absurd hb (by decide))

/-- Claim C5: exactly one binary-obtaining stage runs, selected with
precedence build, then reuse-latest-bootleg, then explicit path, then the
fallback scan of the build output directory; when build is requested the
bootleg and path options are ignored. -/
theorem c5_stage_precedence (cfg : Config) (args : Args) (o : Oracle)
    (hpre : args.build = true → versionOk args o = true ∧ o.buildOk = true) :
    (args.build = true →
        (runPipeline cfg args o).1.filter isFindAct = [PAction.findBuildAct])
    ∧ (args.build = false → args.bootleg = true →
        (runPipeline cfg args o).1.filter isFindAct = [PAction.findBootlegAct])
    ∧ (∀ p : Str, args.build = false → args.bootleg = false → args.path = some p →
        (runPipeline cfg args o).1.filter isFindAct = [PAction.findPathAct p])
    ∧ (args.build = false → args.bootleg = false → args.path = none →
        (runPipeline cfg args o).1.filter isFindAct = [PAction.findBuildAct]) := by
  refine ⟨?_, ?_, ?_, ?_⟩
  · intro hb
    obtain ⟨hv, hbo⟩ := hpre hb
    have hrun : runPipeline cfg args o =
        afterObtain cfg args o
          (versionActs args ++ [PAction.buildAct args.release, PAction.findBuildAct])
          o.findBuildResult := by
      simp [runPipeline, hb, hv, hbo]
    rw [hrun, afterObtain_filter_find, List.filter_append, versionActs_filter_find]
    rfl
  · intro hb hg
    have hrun : runPipeline cfg args o =
        afterObtain cfg args o [PAction.findBootlegAct] o.findBootlegResult := by
      simp [runPipeline, hb, hg]
    rw [hrun, afterObtain_filter_find]
    rfl
  · intro p hb hg hp
    have hrun : runPipeline cfg args o =
        afterObtain cfg args o [PAction.findPathAct p] o.findPathResult := by
      simp [runPipeline, hb, hg, hp]
    rw [hrun, afterObtain_filter_find]
    rfl
  · intro hb hg hp
    have hrun : runPipeline cfg args o =
        afterObtain cfg args o [PAction.findBuildAct] o.findBuildResult := by
      simp [runPipeline, hb, hg, hp]
    rw [hrun, afterObtain_filter_find]
    rfl

/-- Witness for C5: with build and bootleg off and an explicit path set,
the explicit-path locate step is the one that runs. -/
theorem c5_stage_precedence_witness :
    (runPipeline cfgW argsC5 oracleW).1.filter isFindAct = [PAction.findPathAct pW] :=
  (c5_stage_precedence cfgW argsC5 oracleW (fun hb => absurd hb (by decide))).2.2.1
    pW (by rfl) (by rfl) (by rfl)

/-- Claim C9: when the build option is off, the Version Stamper is never
invoked, whatever the decrement and explicit-version options are; the
descriptor file is mutated only by version-stamp actions, so it is
byte-identical before and after the run. -/
theorem c9_no_stamp_without_build (cfg : Config) (args : Args) (o : Oracle)
    (h : args.build = false) :
    (runPipeline cfg args o).1.filter isSetVersionAct = [] := by
  cases hg : args.bootleg with
  | true =>
      have hrun : runPipeline cfg args o =
          afterObtain cfg args o [PAction.findBootlegAct] o.findBootlegResult := by
        simp [runPipeline, h, hg]
      rw [hrun, afterObtain_filter_setv]
      rfl
  | false =>
      rcases hp : args.path with _ | p
      · have hrun : runPipeline cfg args o =
            afterObtain cfg args o [PAction.findBuildAct] o.findBuildResult := by
          simp [runPipeline, h, hg, hp]
        rw [hrun, afterObtain_filter_setv]
        rfl
      · have hrun : runPipeline cfg args o =
            afterObtain cfg args o [PAction.findPathAct p] o.findPathResult := by
          simp [runPipeline, h, hg, hp]
        rw [hrun, afterObtain_filter_setv]
        rfl

/-- Witness for C9: build off while both the decrement and the explicit
version options are set — still no version-stamp action occurs. -/
theorem c9_no_stamp_without_build_witness :
    (runPipeline cfgW argsC9 oracleW).1.filter isSetVersionAct = [] :=
  c9_no_stamp_without_build cfgW argsC9 oracleW (by rfl)
